import Mathlib

/-!
Shallow embedding of `ax/models/torch/rembo.py` (class `REMBO`).

Tensors are modelled as matrices `List (List ℚ)` (a list of rows); real
arithmetic is exact rational arithmetic, so `torch.allclose` becomes an
exact decidable comparison with the same default tolerances
(`rtol = 1e-5`, `atol = 1e-8`).  Each method of the class becomes a
function from the model state to a pair of the post-state (mutations the
source performs before any raise are applied) and an `Except` value:
`Except.error` models a raised assertion / exception, `Except.ok` carries
the arguments delegated to the `BotorchModel` collaborator (whose output
the source returns unchanged) or the returned value.  The collaborator
itself is out of scope and is passed in as a function where its output is
needed (`gen`, `best_point`).
-/

abbrev Vec := List ℚ

abbrev Mat := List (List ℚ)

/-- Default `rtol` of `torch.allclose`. -/
def rtol : ℚ := 1 / 100000

/-- Default `atol` of `torch.allclose`. -/
def atol : ℚ := 1 / 100000000

/-- Absolute value, executable. -/
def absQ (q : ℚ) : ℚ := if q < 0 then -q else q

/-- Elementwise closeness test of `torch.allclose`:
`|a - b| <= atol + rtol * |b|`. -/
def closeQ (a b : ℚ) : Bool := decide (absQ (a - b) ≤ atol + rtol * absQ b)

/-- `torch.allclose` on 1-D tensors.  The length guard stands in for
torch's shape requirement (all call sites in the source compare tensors of
equal shape). -/
def allcloseVec (v w : Vec) : Bool :=
  decide (v.length = w.length) && (v.zip w).all (fun p => closeQ p.1 p.2)

/-- `torch.allclose` on 2-D tensors. -/
def allcloseM (X Y : Mat) : Bool :=
  decide (X.length = Y.length) && (X.zip Y).all (fun p => allcloseVec p.1 p.2)

/-- Dot product. -/
def dotQ (v w : Vec) : ℚ := (List.zipWith (fun a b => a * b) v w).sum

/-- Matrix-vector product `A @ x`; also row `i` of `X @ t(A)` for `x` the
`i`-th row of `X`. -/
def mulVec (A : Mat) (x : Vec) : Vec := A.map (fun r => dotQ r x)

/-- `torch.clamp(q, min := -1, max := 1)`. -/
def clampQ (q : ℚ) : ℚ := min 1 (max (-1) q)

/-- `REMBO.project_up` on a single low-dimensional point (1-D tensor):
`clamp(A @ x, -1, 1)`. -/
def projectUpVec (A : Mat) (x : Vec) : Vec := (mulVec A x).map clampQ

/-- `shape[1]` of a 2-D tensor (rows are rectangular in the source). -/
def ncols : Mat → ℕ
  | [] => 0
  | r :: _ => r.length

/-- One row of `REMBO.to_01`: the loop
`for i, (lb, ub) in enumerate(self.bounds_d): X[:, i] = (X[:, i] - lb) / (ub - lb)`.
Columns beyond `len(bounds_d)` are untouched.  (A `bounds_d` longer than
the row is an index error in the source; every call site supplies rows of
width `len(bounds_d)`.) -/
def to01row : List (ℚ × ℚ) → Vec → Vec
  | _, [] => []
  | [], v => v
  | (lb, ub) :: bs, x :: xs => ((x - lb) / (ub - lb)) :: to01row bs xs

/-- One row of `REMBO.from_01`: `X[:, i] = X[:, i] * (ub - lb) + lb`. -/
def from01row : List (ℚ × ℚ) → Vec → Vec
  | _, [] => []
  | [], v => v
  | (lb, ub) :: bs, x :: xs => (x * (ub - lb) + lb) :: from01row bs xs

/-- `REMBO.to_01` with the bounds as an explicit argument. -/
def to01M (bs : List (ℚ × ℚ)) (X : Mat) : Mat := X.map (to01row bs)

/-- `REMBO.from_01` with the bounds as an explicit argument. -/
def from01M (bs : List (ℚ × ℚ)) (X : Mat) : Mat := X.map (from01row bs)

/-- Error message of the `assert` statements (precondition failures). -/
def assertMsg : String := "assert failed"

/-- Error message of the failing `assert torch.allclose` in `_get_single_X`. -/
def singleXMsg : String := "assert allclose failed"

/-- `IndexError` of `Xs[0]` on an empty list in `_get_single_X`. -/
def indexMsg : String := "list index out of range"

/-- `ValueError` raised by `REMBO.project_down`. -/
def downMsg : String := "Failed to project X down."

/-- `RuntimeError` of `torch.stack` on an empty list of matches. -/
def stackMsg : String := "stack expects a non-empty TensorList"

/-- `NotImplementedError` raised by `REMBO.predict`. -/
def embedMsg : String := "Predictions outside the linear embedding not supported."

/-- State of a `REMBO` instance.  `pinvA` caches `torch.pinverse(A)`
(computed once in `__init__`); the pseudo-inverse computation itself is
torch library code, so the state carries its value and `isPinvMP` below
characterises it. -/
structure REMBO where
  A : Mat
  pinvA : Mat
  X_d : List Vec
  X_d_gen : List Vec
  bounds_d : List (ℚ × ℚ)
  num_outputs : ℕ
  deriving DecidableEq

/-- `REMBO.__init__`: stores `A`, caches the pseudo-inverse, seeds the
correspondence store with `initial_X_d`, starts the generated log empty
and `num_outputs` at 0. -/
def REMBO.init (A pinvA : Mat) (initial_X_d : List Vec) (bounds_d : List (ℚ × ℚ)) : REMBO :=
  ⟨A, pinvA, initial_X_d, [], bounds_d, 0⟩

/-- Transpose of a rectangular matrix (used only to state the
Moore-Penrose characterisation of `torch.pinverse`). -/
def transposeM (T : Mat) : Mat :=
  (List.range (ncols T)).map (fun j => T.map (fun r => r.getD j 0))

/-- Full matrix product (used only for the Moore-Penrose characterisation). -/
def matMul (X Y : Mat) : Mat :=
  X.map (fun r => (List.range (ncols Y)).map (fun j => dotQ r (Y.map (fun yr => yr.getD j 0))))

/-- The four Moore-Penrose conditions: `P = pinverse A`. -/
def isPinvMP (A P : Mat) : Bool :=
  decide (matMul (matMul A P) A = A) && decide (matMul (matMul P A) P = P) &&
  decide (transposeM (matMul A P) = matMul A P) &&
  decide (transposeM (matMul P A) = matMul P A)

/-- `REMBO.to_01`. -/
def REMBO.to_01 (st : REMBO) (X : Mat) : Mat := to01M st.bounds_d X

/-- `REMBO.from_01`. -/
def REMBO.from_01 (st : REMBO) (X : Mat) : Mat := from01M st.bounds_d X

/-- `REMBO.project_up`: `t(A @ t(X))` clamped to `[-1, 1]`, i.e. row `i`
is `clamp(A @ X[i], -1, 1)`. -/
def REMBO.project_up (st : REMBO) (X : Mat) : Mat := X.map (projectUpVec st.A)

/-- The inner scan of `REMBO.project_down`: first index in `unmatched`
(store order) whose stored point projects up close to the query row. -/
def findMatch (A : Mat) (store : List Vec) (q : Vec) : List ℕ → Option ℕ
  | [] => none
  | i :: rest =>
    if allcloseVec q (projectUpVec A (store.getD i [])) then some i
    else findMatch A store q rest

/-- The loop of `REMBO.project_down`: each query row consumes the first
tolerance-matching unmatched store entry; a row with no remaining match
raises `ValueError`. -/
def projectDownAux (A : Mat) (store : List Vec) : List Vec → List ℕ → Except String (List Vec)
  | [], _ => Except.ok []
  | q :: qs, unmatched =>
    match findMatch A store q unmatched with
    | some i =>
      match projectDownAux A store qs (unmatched.erase i) with
      | Except.ok r => Except.ok (store.getD i [] :: r)
      | Except.error e => Except.error e
    | none => Except.error downMsg

/-- `REMBO.project_down`.  An empty `X_D` skips the loop and reaches
`torch.stack([])`, which raises. -/
def REMBO.project_down (st : REMBO) (X_D : List Vec) : Except String (List Vec) :=
  match X_D with
  | [] => Except.error stackMsg
  | q :: qs => projectDownAux st.A st.X_d (q :: qs) (List.range st.X_d.length)

/-- `_get_single_X`: `Xs[0]` after asserting `torch.allclose(Xs[0], Xs[i])`
for every `i >= 1` (the source loop raises at the first failure; the
observable outcome — which value is returned, and error vs success — is
the same). -/
def _get_single_X : List Mat → Except String Mat
  | [] => Except.error indexMsg
  | X :: rest =>
    if rest.all (fun Xi => allcloseM X Xi) then Except.ok X
    else Except.error singleXMsg

/-- `SearchSpaceDigest` (the fields `REMBO.fit` reads or rebuilds). -/
structure SearchSpaceDigest where
  feature_names : List String
  bounds : List (ℚ × ℚ)
  task_features : List ℕ
  fidelity_features : List ℕ
  deriving DecidableEq

/-- `all(b == (-1, 1) for b in bounds)` — the bound asserts of
`fit` / `gen` / `best_point`. -/
def boundsNeg11 (bs : List (ℚ × ℚ)) : Bool :=
  bs.all (fun b => decide (b = ((-1 : ℚ), (1 : ℚ))))

/-- The asserts at the top of `REMBO.fit`. -/
def fitPreconds (d : SearchSpaceDigest) : Bool :=
  d.task_features.isEmpty && d.fidelity_features.isEmpty && boundsNeg11 d.bounds

/-- Arguments `REMBO.fit` passes to `BotorchModel.fit`. -/
structure FitCall where
  Xs : List Mat
  Ys : List Mat
  Yvars : List Mat
  search_space_digest : SearchSpaceDigest
  metric_names : List String
  candidate_metadata : Option Unit
  deriving DecidableEq

/-- `REMBO.fit`.  Mutation order of the source: the asserts run first
(state untouched on their failure), then `self.num_outputs = len(Xs)` is
written, then `_get_single_X` and `project_down` may raise (leaving the
new `num_outputs` in place), then the collaborator is called with the
unit-box-normalised shared design matrix replicated `len(Xs)` times. -/
def REMBO.fit (st : REMBO) (Xs Ys Yvars : List Mat) (search_space_digest : SearchSpaceDigest)
    (metric_names : List String) (candidate_metadata : Option Unit) :
    REMBO × Except String FitCall :=
  if fitPreconds search_space_digest then
    ({ st with num_outputs := Xs.length },
      match _get_single_X Xs with
      | Except.error e => Except.error e
      | Except.ok X_D =>
        match st.project_down X_D with
        | Except.error e => Except.error e
        | Except.ok X_d =>
          Except.ok
            ⟨List.replicate Xs.length (to01M st.bounds_d X_d), Ys, Yvars,
              ⟨(List.range (ncols st.A)).map (fun i => "x" ++ toString i),
                List.replicate st.bounds_d.length ((0 : ℚ), (1 : ℚ)),
                search_space_digest.task_features, search_space_digest.fidelity_features⟩,
              metric_names, candidate_metadata⟩)
  else (st, Except.error assertMsg)

/-- `REMBO.predict`.  Dispatches on `X.shape[1] == A.shape[1]`; the
high-dimensional branch validates `torch.allclose(X, X_d @ t(A))` (note:
the re-projection here is NOT clamped).  `Except.ok` carries the
unit-box-normalised matrix delegated to `BotorchModel.predict`, whose
output the source returns unchanged. -/
def REMBO.predict (st : REMBO) (X : Mat) : REMBO × Except String Mat :=
  if ncols X = ncols st.A then (st, Except.ok (to01M st.bounds_d X))
  else
    let X_d := X.map (mulVec st.pinvA)
    if allcloseM X (X_d.map (mulVec st.A)) then (st, Except.ok (to01M st.bounds_d X_d))
    else (st, Except.error embedMsg)

/-- `REMBO.gen`.  `superGen` is `BotorchModel.gen`
(`n`, `bounds`, `objective_weights`, `outcome_constraints`,
`model_gen_options` — returning candidates, weights, gen metadata and
candidate metadata; the source discards the latter two and returns
`{}`/`None`). -/
def REMBO.gen (st : REMBO) (n : ℕ) (bounds : List (ℚ × ℚ)) (objective_weights : Vec)
    (outcome_constraints : Option (Mat × Vec)) (linear_constraints : Option (Mat × Vec))
    (fixed_features : Option (List (ℕ × ℚ))) (pending_observations : Option (List Mat))
    (model_gen_options : Option Unit)
    (superGen : ℕ → List (ℚ × ℚ) → Vec → Option (Mat × Vec) → Option Unit →
      Mat × Vec × List (String × String) × Option Unit) :
    REMBO × Except String (Mat × Vec × List (String × String) × Option Unit) :=
  if boundsNeg11 bounds && linear_constraints.isNone && fixed_features.isNone &&
      pending_observations.isNone then
    let res := superGen n (List.replicate st.bounds_d.length ((0 : ℚ), (1 : ℚ)))
      objective_weights outcome_constraints model_gen_options
    let Xopt := from01M st.bounds_d res.1
    ({ st with X_d := st.X_d ++ Xopt, X_d_gen := st.X_d_gen ++ Xopt },
      Except.ok (st.project_up Xopt, res.2.1, [], none))
  else (st, Except.error assertMsg)

/-- `REMBO.best_point`.  `superBest` is `BotorchModel.best_point`; a
returned point is mapped through `from_01` then `project_up`
(`unsqueeze` / `squeeze` make it a one-row matrix and back). -/
def REMBO.best_point (st : REMBO) (bounds : List (ℚ × ℚ)) (objective_weights : Vec)
    (outcome_constraints : Option (Mat × Vec)) (linear_constraints : Option (Mat × Vec))
    (fixed_features : Option (List (ℕ × ℚ))) (model_gen_options : Option Unit)
    (superBest : List (ℚ × ℚ) → Vec → Option (Mat × Vec) → Option Unit → Option Vec) :
    REMBO × Except String (Option Vec) :=
  if boundsNeg11 bounds && linear_constraints.isNone && fixed_features.isNone then
    match superBest st.bounds_d objective_weights outcome_constraints model_gen_options with
    | none => (st, Except.ok none)
    | some x => (st, Except.ok (some (projectUpVec st.A (from01row st.bounds_d x))))
  else (st, Except.error assertMsg)

/-- Arguments `REMBO.cross_validate` passes to `BotorchModel.cross_validate`. -/
structure CVCall where
  Xs_train : List Mat
  Ys_train : List Mat
  Yvars_train : List Mat
  X_test : Mat
  deriving DecidableEq

/-- `REMBO.cross_validate`: projects the shared training matrix and the
test matrix down through the correspondence store (each call scanning the
full store afresh), normalises both, and replicates the training matrix
`self.num_outputs` times. -/
def REMBO.cross_validate (st : REMBO) (Xs_train Ys_train Yvars_train : List Mat)
    (X_test : Mat) : REMBO × Except String CVCall :=
  (st,
    match _get_single_X Xs_train with
    | Except.error e => Except.error e
    | Except.ok X_D =>
      match st.project_down X_D with
      | Except.error e => Except.error e
      | Except.ok X_train_d =>
        match st.project_down X_test with
        | Except.error e => Except.error e
        | Except.ok X_test_d =>
          Except.ok
            ⟨List.replicate st.num_outputs (to01M st.bounds_d X_train_d),
              Ys_train, Yvars_train, to01M st.bounds_d X_test_d⟩)

/-- Arguments `REMBO.update` passes to `BotorchModel.update`. -/
structure UpdateCall where
  Xs : List Mat
  Ys : List Mat
  Yvars : List Mat
  candidate_metadata : Option Unit
  deriving DecidableEq

/-- `REMBO.update`: same resolution/normalisation as `fit`, but the shared
design matrix is replicated `self.num_outputs` times (the value recorded
by the most recent `fit`), not `len(Xs)` times. -/
def REMBO.update (st : REMBO) (Xs Ys Yvars : List Mat) (candidate_metadata : Option Unit) :
    REMBO × Except String UpdateCall :=
  (st,
    match _get_single_X Xs with
    | Except.error e => Except.error e
    | Except.ok X_D =>
      match st.project_down X_D with
      | Except.error e => Except.error e
      | Except.ok X_d =>
        Except.ok
          ⟨List.replicate st.num_outputs (to01M st.bounds_d X_d), Ys, Yvars,
            candidate_metadata⟩)

/-! ## Generic instances -/

instance {ε α : Type} [DecidableEq ε] [DecidableEq α] : DecidableEq (Except ε α) := fun a b =>
  match a, b with
  | Except.error e, Except.error f =>
    if h : e = f then Decidable.isTrue (by rw [h])
    else Decidable.isFalse (fun hc => by cases hc; exact h rfl)
  | Except.ok x, Except.ok y =>
    if h : x = y then Decidable.isTrue (by rw [h])
    else Decidable.isFalse (fun hc => by cases hc; exact h rfl)
  | Except.error _, Except.ok _ => Decidable.isFalse (fun hc => by cases hc)
  | Except.ok _, Except.error _ => Decidable.isFalse (fun hc => by cases hc)

/-! ## Concrete instances used by witnesses and counterexamples -/

/-- Example instance: `A = [[2], [0]]` (`D = 2`, `d = 1`),
`pinvA = [[1/2, 0]]` (its true Moore-Penrose pseudo-inverse),
`bounds_d = [(-1, 1)]`, empty store. -/
def stEx : REMBO := ⟨[[2], [0]], [[1/2, 0]], [], [], [((-1 : ℚ), 1)], 0⟩

/-- A digest satisfying the `fit` preconditions for `D = 1`. -/
def digEx : SearchSpaceDigest := ⟨[], [((-1 : ℚ), 1)], [], []⟩

/-- A one-dimensional instance (`A = [[1]]`, its pseudo-inverse `[[1]]`),
store `[[0]]`, `num_outputs = 5`. -/
def stEx1 : REMBO := ⟨[[1]], [[1]], [[0]], [], [((-1 : ℚ), 1)], 5⟩

/-- Like `stEx1` but `num_outputs = 0` (no `fit` recorded yet). -/
def stEx0 : REMBO := ⟨[[1]], [[1]], [[0]], [], [((-1 : ℚ), 1)], 0⟩

/-- A store holding two near-duplicate low-dimensional points whose
projections are within tolerance of each other (`A = [[1]]`). -/
def stEx2 : REMBO := ⟨[[1]], [[1]], [[0], [1 / 1000000000]], [], [((-1 : ℚ), 1)], 0⟩

/-- `1e-8`, the `atol` of `torch.allclose`. -/
def e8 : ℚ := 1 / 100000000

/-- A concrete collaborator `gen`: one candidate `[1/2]` in the unit box,
weight 1, and non-empty metadata (which `REMBO.gen` must discard). -/
def genF : ℕ → List (ℚ × ℚ) → Vec → Option (Mat × Vec) → Option Unit →
    Mat × Vec × List (String × String) × Option Unit :=
  fun _ _ _ _ _ => ([[1 / 2]], [1], [("meta", "data")], some ())

/-- A concrete collaborator `best_point` that finds no feasible point. -/
def bestF : List (ℚ × ℚ) → Vec → Option (Mat × Vec) → Option Unit → Option Vec :=
  fun _ _ _ _ => none

/-! ## Helper lemmas -/

theorem absQ_nonneg (q : ℚ) : 0 ≤ absQ q := by
  unfold absQ
  split
  · linarith
  · linarith

theorem closeQ_refl (x : ℚ) : closeQ x x = true := by
  unfold closeQ
  rw [decide_eq_true_iff]
  have h0 : absQ (x - x) = 0 := by
    simp [absQ]
  rw [h0]
  have h1 : 0 ≤ rtol * absQ x :=
    mul_nonneg (by norm_num [rtol]) (absQ_nonneg x)
  have h2 : (0 : ℚ) < atol := by norm_num [atol]
  linarith

theorem allcloseVec_refl (v : Vec) : allcloseVec v v = true := by
  unfold allcloseVec
  rw [Bool.and_eq_true, decide_eq_true_iff]
  refine ⟨rfl, ?_⟩
  induction v with
  | nil => rfl
  | cons x xs ih =>
    simp only [List.zip_cons_cons, List.all_cons, Bool.and_eq_true]
    exact ⟨closeQ_refl x, ih⟩

/-! ## Round-trip of the bounds maps (row level) -/

theorem from01row_to01row (bs : List (ℚ × ℚ)) (v : Vec)
    (hb : ∀ p ∈ bs, p.1 < p.2) (hl : v.length = bs.length) :
    from01row bs (to01row bs v) = v := by
  induction bs generalizing v with
  | nil =>
    cases v with
    | nil => rfl
    | cons x xs => simp at hl
  | cons p bs ih =>
    obtain ⟨lb, ub⟩ := p
    cases v with
    | nil => simp at hl
    | cons x xs =>
      have hlt : lb < ub := hb (lb, ub) (List.mem_cons_self _ _)
      have hne : ub - lb ≠ 0 := sub_ne_zero_of_ne (ne_of_gt hlt)
      simp only [to01row, from01row]
      have h1 : (x - lb) / (ub - lb) * (ub - lb) + lb = x := by
        field_simp
      rw [h1, ih xs (fun p hp => hb p (List.mem_cons_of_mem _ hp)) (by simpa using hl)]

/-- C6: for every box with `ub > lb` in every dimension and every point
matrix over that box (rows of width `len(bounds)`), mapping to the unit
box and back returns the input — here even exactly, which in particular is
within floating-point tolerance. -/
theorem from01_to01_roundtrip (b : List (ℚ × ℚ)) (X : Mat)
    (hb : ∀ p ∈ b, p.1 < p.2) (hX : ∀ r ∈ X, r.length = b.length) :
    from01M b (to01M b X) = X := by
  revert hX
  induction X with
  | nil => intro _; rfl
  | cons r rs ih =>
    intro hX
    simp only [to01M, from01M, List.map_cons]
    rw [from01row_to01row b r hb (hX r (List.mem_cons_self _ _))]
    have h2 := ih (fun x hx => hX x (List.mem_cons_of_mem _ hx))
    simp only [to01M, from01M] at h2
    rw [h2]

/-- Witness for C6 at the box `[(-1,1), (0,2)]` and two concrete points. -/
theorem from01_to01_roundtrip_witness :
    from01M [((-1 : ℚ), 1), ((0 : ℚ), 2)]
      (to01M [((-1 : ℚ), 1), ((0 : ℚ), 2)] [[0, 1], [1/2, 3/2]]) = [[0, 1], [1/2, 3/2]] :=
  from01_to01_roundtrip _ _ (by decide) (by decide)

/-- C5: every coordinate of `project_up(X)` lies in `[-1, 1]`, for every
low-dimensional input matrix `X` — the clamp makes this unconditional. -/
theorem project_up_range (st : REMBO) (X : Mat) :
    ∀ r ∈ st.project_up X, ∀ v ∈ r, -1 ≤ v ∧ v ≤ 1 := by
  intro r hr v hv
  simp only [REMBO.project_up, List.mem_map] at hr
  obtain ⟨x, _, rfl⟩ := hr
  simp only [projectUpVec, List.mem_map] at hv
  obtain ⟨u, _, rfl⟩ := hv
  unfold clampQ
  exact ⟨le_min (by norm_num) (le_max_left _ _), min_le_left _ _⟩

/-- Witness for C5: at `A = [[2], [0]]`, `X = [[3]]` the projection row is
`[1, 0]` (clamped from `[6, 0]`) and the sampled coordinate `1` lies in
`[-1, 1]`. -/
theorem project_up_range_witness :
    ([(1 : ℚ), 0] ∈ stEx.project_up [[3]]) ∧ ((-1 : ℚ) ≤ 1 ∧ (1 : ℚ) ≤ 1) :=
  ⟨by norm_num [stEx, REMBO.project_up, projectUpVec, mulVec, dotQ, clampQ],
    project_up_range stEx [[3]] [(1 : ℚ), 0]
      (by norm_num [stEx, REMBO.project_up, projectUpVec, mulVec, dotQ, clampQ])
      1 (by norm_num)⟩

/-- C9: as soon as the domain preconditions of `fit` pass, the state's
`num_outputs` is `len(Xs)` — including when `fit` then fails on the
inconsistent-outcome check or on correspondence resolution, so `fit` is
not atomic with respect to that field. -/
theorem fit_sets_num_outputs_before_checks (st : REMBO) (Xs Ys Yvars : List Mat)
    (digest : SearchSpaceDigest) (mns : List String) (cm : Option Unit)
    (h : fitPreconds digest = true) :
    (REMBO.fit st Xs Ys Yvars digest mns cm).1.num_outputs = Xs.length := by
  simp [REMBO.fit, h]

/-- Witness for C9: a `fit` call whose design matrices are inconsistent
fails with the consistency error, yet `num_outputs` has been overwritten
from 5 to 2. -/
theorem fit_sets_num_outputs_before_checks_witness :
    fitPreconds digEx = true ∧
    (REMBO.fit stEx1 [[[0]], [[1]]] [] [] digEx [] none).2 = Except.error singleXMsg ∧
    (REMBO.fit stEx1 [[[0]], [[1]]] [] [] digEx [] none).1.num_outputs = 2 :=
  ⟨by norm_num [fitPreconds, digEx, boundsNeg11],
    by norm_num [REMBO.fit, fitPreconds, digEx, stEx1, boundsNeg11, _get_single_X,
      allcloseM, allcloseVec, closeQ, absQ, atol, rtol],
    fit_sets_num_outputs_before_checks stEx1 [[[0]], [[1]]] [] [] digEx [] none
      (by norm_num [fitPreconds, digEx, boundsNeg11])⟩

/-- C10: `predict` dispatches solely on whether the input's column count
equals `d = A.shape[1]`: width-`d` inputs are forwarded (unit-box
normalised) with no pseudo-inverse, no embedding validation and no check
against `bounds_d`; width-`D` inputs with `D ≠ d` take exactly the
validated pseudo-inverse path; and when `D = d`, every width-`D` input
takes the unvalidated low-dimensional branch. -/
theorem predict_dispatch_by_width (st : REMBO) (X : Mat) :
    (ncols X = ncols st.A → REMBO.predict st X = (st, Except.ok (to01M st.bounds_d X)))
    ∧ (ncols X = st.A.length → ncols X ≠ ncols st.A →
        REMBO.predict st X =
          (st, if allcloseM X ((X.map (mulVec st.pinvA)).map (mulVec st.A)) then
            Except.ok (to01M st.bounds_d (X.map (mulVec st.pinvA)))
          else Except.error embedMsg))
    ∧ (st.A.length = ncols st.A → ncols X = st.A.length →
        REMBO.predict st X = (st, Except.ok (to01M st.bounds_d X))) := by
  refine ⟨fun h => by simp [REMBO.predict, h], fun _ h => ?_, fun hDd hX => ?_⟩
  · simp only [REMBO.predict, if_neg h]
    split
    · rfl
    · rfl
  · simp [REMBO.predict, hX.trans hDd]

/-- Witness for C10: `X = [[3]]` has width `d = 1` and lies far outside
`bounds_d = [(-1, 1)]`, yet `predict` forwards its normalisation without
any failure. -/
theorem predict_dispatch_by_width_witness :
    REMBO.predict stEx [[3]] = (stEx, Except.ok (to01M stEx.bounds_d [[3]])) :=
  (predict_dispatch_by_width stEx [[3]]).1 (by decide)

/-! ## Correspondence resolution (C2) -/

theorem getD_of_drop (zs : List Vec) (k : ℕ) (t : Vec) (ts : List Vec)
    (h : zs.drop k = t :: ts) : zs.getD k [] = t := by
  have h1 : zs[k]? = some t := by
    rw [← List.head?_drop, h]
    rfl
  rw [List.getD_eq_getElem?_getD, h1]
  rfl

theorem drop_succ_of_drop (zs : List Vec) (k : ℕ) (t : Vec) (ts : List Vec)
    (h : zs.drop k = t :: ts) : zs.drop (k + 1) = ts := by
  have h2 := List.drop_drop 1 k zs
  rw [h] at h2
  simpa using h2.symm

/-- Scanning the suffix of unmatched indices `k, k+1, ...` against the
queries `project_up(zs[k]), project_up(zs[k+1]), ...` matches each query
to its own index: the candidate `k` comes first in store order and
`allclose` is reflexive, so the first-match rule picks it. -/
theorem projectDownAux_self (A : Mat) (zs : List Vec) :
    ∀ (tail : List Vec) (k : ℕ), zs.drop k = tail →
      projectDownAux A zs (tail.map (projectUpVec A)) (List.range' k tail.length) =
        Except.ok tail := by
  intro tail
  induction tail with
  | nil => intro k _; rfl
  | cons t ts ih =>
    intro k hk
    have hget : zs.getD k [] = t := getD_of_drop zs k t ts hk
    have hdrop : zs.drop (k + 1) = ts := drop_succ_of_drop zs k t ts hk
    have hrange : List.range' k (t :: ts).length = k :: List.range' (k + 1) ts.length :=
      List.range'_succ k ts.length 1
    have hfind : findMatch A zs (projectUpVec A t) (k :: List.range' (k + 1) ts.length) =
        some k := by
      unfold findMatch
      rw [hget, allcloseVec_refl]
      rfl
    simp only [List.map_cons, hrange, projectDownAux, hfind, List.erase_cons_head,
      ih (k + 1) hdrop, hget]

/-- C2 (amended to nonempty batches): if the store contains exactly
`z1, ..., zk` (`k ≥ 1`), resolving `[project_up(z1), ..., project_up(zk)]`
succeeds and returns exactly `[z1, ..., zk]` — the identity matching, so
each stored point is used exactly once — even when some points project to
identical or near-identical high-dimensional rows. -/
theorem project_down_roundtrip_nonempty (st : REMBO) (h : st.X_d ≠ []) :
    st.project_down (st.X_d.map (projectUpVec st.A)) = Except.ok st.X_d := by
  have haux := projectDownAux_self st.A st.X_d st.X_d 0 (List.drop_zero _)
  rw [← List.range_eq_range'] at haux
  obtain ⟨z, zs, hz⟩ : ∃ z zs, st.X_d = z :: zs := by
    cases hzd : st.X_d with
    | nil => exact absurd hzd h
    | cons a l => exact ⟨a, l, rfl⟩
  unfold REMBO.project_down
  rw [hz, List.map_cons]
  rw [hz, List.map_cons] at haux
  exact haux

/-- Witness for C2: a store with two near-duplicate points `[0]` and
`[1e-9]` (projections within tolerance of each other) resolves its own
projections to exactly itself. -/
theorem project_down_roundtrip_nonempty_witness :
    stEx2.project_down (stEx2.X_d.map (projectUpVec stEx2.A)) = Except.ok stEx2.X_d :=
  project_down_roundtrip_nonempty stEx2 (by simp [stEx2])

/-- Counterexample for C2 as frozen (it quantifies over every finite list
of points): for the empty list the store is `[]` and the batch is `[]`,
and `project_down` raises (`torch.stack` on the empty match list) instead
of succeeding. -/
theorem project_down_empty_batch_cex :
    stEx.X_d = [] ∧
    stEx.project_down (stEx.X_d.map (projectUpVec stEx.A)) = Except.error stackMsg :=
  ⟨rfl, rfl⟩

/-! ## The embedding check of predict (C1) -/

/-- C1 (amended): for a high-dimensional input (width `D`, different from
`d`), `predict` fails with the distinct outside-embedding condition
exactly when `x` is not within tolerance of its UNCLAMPED re-projection
`project_down_via_pinv(x) · Aᵗ` — the source compares against
`X_d @ t(self.A)` directly, not against `project_up(X_d)`, whose clamp the
frozen claim would additionally apply; when they agree within tolerance,
`predict` delegates the unit-box-normalised low-dimensional coordinates
and does not fail at this layer. -/
theorem predict_embedding_check_amended (st : REMBO) (X : Mat)
    (_hD : ncols X = st.A.length) (hd : ncols X ≠ ncols st.A) :
    ((REMBO.predict st X).2 = Except.error embedMsg ↔
      allcloseM X ((X.map (mulVec st.pinvA)).map (mulVec st.A)) = false)
    ∧ (allcloseM X ((X.map (mulVec st.pinvA)).map (mulVec st.A)) = true →
        REMBO.predict st X = (st, Except.ok (to01M st.bounds_d (X.map (mulVec st.pinvA))))) := by
  simp only [REMBO.predict, if_neg hd]
  cases hc : allcloseM X ((X.map (mulVec st.pinvA)).map (mulVec st.A)) <;> simp

/-- Witness for C1 (amended): `x = [[0, 5]]` re-projects to `[[0, 0]]`,
not within tolerance, and `predict` raises the outside-embedding error. -/
theorem predict_embedding_check_amended_witness :
    (REMBO.predict stEx [[0, 5]]).2 = Except.error embedMsg :=
  (predict_embedding_check_amended stEx [[0, 5]] (by decide) (by decide)).1.mpr
    (by norm_num [allcloseM, allcloseVec, closeQ, absQ, atol, rtol, mulVec, dotQ, stEx])

/-- Counterexample for C1 as frozen: `A = [[2], [0]]` with its genuine
Moore-Penrose pseudo-inverse `[[1/2, 0]]`; the high-dimensional input
`x = [[4, 0]]` satisfies `project_down_via_pinv(x) = [[2]]`, whose
unclamped re-projection is `[[4, 0]] = x` (so the source happily
delegates), while `project_up([[2]]) = [[1, 0]]` is NOT within tolerance
of `x` — the frozen claim demands a failure here, but `predict`
succeeds. -/
theorem predict_embedding_check_cex :
    isPinvMP stEx.A stEx.pinvA = true
    ∧ ncols ([[4, 0]] : Mat) ≠ ncols stEx.A
    ∧ allcloseM [[4, 0]] (stEx.project_up ([[4, 0]].map (mulVec stEx.pinvA))) = false
    ∧ REMBO.predict stEx [[4, 0]] = (stEx, Except.ok (to01M stEx.bounds_d [[2]])) := by
  refine ⟨?_, by decide, ?_, ?_⟩
  · norm_num [isPinvMP, matMul, transposeM, dotQ, ncols, stEx,
      List.range_succ, List.range_zero]
  · norm_num [allcloseM, allcloseVec, closeQ, absQ, atol, rtol, mulVec, dotQ, stEx,
      REMBO.project_up, projectUpVec, clampQ]
  · norm_num [REMBO.predict, ncols, stEx, allcloseM, allcloseVec, closeQ, absQ,
      atol, rtol, mulVec, dotQ, to01M, to01row]

/-! ## Fit consistency check (C3) -/

theorem projectDownAux_error (A : Mat) (store : List Vec) :
    ∀ (qs : List Vec) (unmatched : List ℕ) (e : String),
      projectDownAux A store qs unmatched = Except.error e → e = downMsg := by
  intro qs
  induction qs with
  | nil => intro unmatched e h; cases h
  | cons q rest ih =>
    intro unmatched e h
    unfold projectDownAux at h
    split at h
    · split at h
      · exact absurd h (by simp)
      · injection h with hfe
        subst hfe
        exact ih _ _ (by assumption)
    · injection h with hfe
      exact hfe.symm

theorem project_down_error (st : REMBO) (X_D : List Vec) (e : String)
    (h : st.project_down X_D = Except.error e) : e = stackMsg ∨ e = downMsg := by
  unfold REMBO.project_down at h
  cases X_D with
  | nil => cases h; exact Or.inl rfl
  | cons q qs =>
    exact Or.inr (projectDownAux_error st.A st.X_d (q :: qs) (List.range st.X_d.length) e h)

/-- C3 (amended): given the domain preconditions, `fit` fails with the
inconsistent-outcome condition (before normalisation and before
delegating) exactly when some LATER design matrix `Xs[i]`, `i ≥ 1`,
differs from the FIRST matrix `Xs[0]` beyond tolerance — the source
compares each matrix against `Xs[0]` only, not all pairs. -/
theorem fit_consistency_first_matrix (st : REMBO) (X : Mat) (rest : List Mat)
    (Ys Yvars : List Mat) (digest : SearchSpaceDigest) (mns : List String) (cm : Option Unit)
    (h : fitPreconds digest = true) :
    ((REMBO.fit st (X :: rest) Ys Yvars digest mns cm).2 = Except.error singleXMsg)
    ↔ rest.all (fun Xi => allcloseM X Xi) = false := by
  simp only [REMBO.fit, h, if_true]
  cases hall : rest.all (fun Xi => allcloseM X Xi) with
  | true =>
    simp only [_get_single_X, hall, if_true]
    cases hpd : st.project_down X with
    | ok Xd => simp
    | error e =>
      rcases project_down_error st X e hpd with he | he <;>
        simp [he, stackMsg, downMsg, singleXMsg]
  | false =>
    simp only [_get_single_X, hall, Bool.false_eq_true, if_false]

/-- Witness for C3 (amended): two concrete design matrices `[[0]]` and
`[[1]]` beyond tolerance make `fit` fail with the consistency error. -/
theorem fit_consistency_first_matrix_witness :
    (REMBO.fit stEx0 [[[0]], [[1]]] [] [] digEx [] none).2 = Except.error singleXMsg :=
  (fit_consistency_first_matrix stEx0 [[0]] [[[1]]] [] [] digEx [] none
    (by norm_num [fitPreconds, digEx, boundsNeg11])).mpr
    (by norm_num [allcloseM, allcloseVec, closeQ, absQ, atol, rtol])

/-- Counterexample for C3 as frozen: with `Xs = [[[0]], [[1e-8]], [[-1e-8]]]`
the two matrices `[[1e-8]]` and `[[-1e-8]]` differ beyond tolerance in both
orders (so "some two of the matrices differ pairwise"), yet `fit` succeeds
and delegates, because the source only compares each matrix against
`Xs[0] = [[0]]`, which is within tolerance of both. -/
theorem fit_consistency_pairwise_cex :
    allcloseM [[e8]] [[-e8]] = false ∧ allcloseM [[-e8]] [[e8]] = false ∧
    (REMBO.fit stEx0 [[[0]], [[e8]], [[-e8]]] [] [] digEx [] none).2 =
      Except.ok ⟨List.replicate 3 [[1 / 2]], [], [], ⟨["x0"], [((0 : ℚ), 1)], [], []⟩,
        [], none⟩ := by
  refine ⟨?_, ?_, ?_⟩
  · norm_num [allcloseM, allcloseVec, closeQ, absQ, atol, rtol, e8]
  · norm_num [allcloseM, allcloseVec, closeQ, absQ, atol, rtol, e8]
  · norm_num [REMBO.fit, fitPreconds, digEx, stEx0, boundsNeg11, _get_single_X,
      allcloseM, allcloseVec, closeQ, absQ, atol, rtol, e8, REMBO.project_down,
      projectDownAux, findMatch, projectUpVec, mulVec, dotQ, clampQ, to01M, to01row,
      ncols, List.range_succ, List.range_zero]
    rfl

/-! ## Generation (C4) -/

/-- C4: when the declared bounds are all `(-1, 1)` and linear constraints,
fixed features and pending observations are absent, `gen` delegates with
unit-box bounds `[0,1]^d`, maps the returned candidates back to
`bounds_d` with the inverse bounds transform, appends exactly those
low-dimensional points to both the correspondence store and the generated
log, and returns their `project_up` image with the collaborator's weights
and empty metadata outputs (whatever metadata the collaborator produced). -/
theorem gen_delegates_unit_box (st : REMBO) (n : ℕ) (bounds : List (ℚ × ℚ)) (ow : Vec)
    (oc : Option (Mat × Vec)) (opts : Option Unit)
    (superGen : ℕ → List (ℚ × ℚ) → Vec → Option (Mat × Vec) → Option Unit →
      Mat × Vec × List (String × String) × Option Unit)
    (h : boundsNeg11 bounds = true) :
    REMBO.gen st n bounds ow oc none none none opts superGen =
      ({ st with
          X_d := st.X_d ++ from01M st.bounds_d
            (superGen n (List.replicate st.bounds_d.length ((0 : ℚ), (1 : ℚ))) ow oc opts).1,
          X_d_gen := st.X_d_gen ++ from01M st.bounds_d
            (superGen n (List.replicate st.bounds_d.length ((0 : ℚ), (1 : ℚ))) ow oc opts).1 },
        Except.ok
          (st.project_up (from01M st.bounds_d
            (superGen n (List.replicate st.bounds_d.length ((0 : ℚ), (1 : ℚ))) ow oc opts).1),
            (superGen n (List.replicate st.bounds_d.length ((0 : ℚ), (1 : ℚ))) ow oc opts).2.1,
            [], none)) := by
  simp [REMBO.gen, h]

/-- Witness for C4 at a concrete collaborator (`genF`, which returns
non-empty metadata that `gen` must discard). -/
theorem gen_delegates_unit_box_witness :
    REMBO.gen stEx0 1 [((-1 : ℚ), 1)] [1] none none none none none genF =
      ({ stEx0 with
          X_d := stEx0.X_d ++ from01M stEx0.bounds_d
            (genF 1 (List.replicate stEx0.bounds_d.length ((0 : ℚ), (1 : ℚ))) [1] none none).1,
          X_d_gen := stEx0.X_d_gen ++ from01M stEx0.bounds_d
            (genF 1 (List.replicate stEx0.bounds_d.length ((0 : ℚ), (1 : ℚ))) [1] none none).1 },
        Except.ok
          (stEx0.project_up (from01M stEx0.bounds_d
            (genF 1 (List.replicate stEx0.bounds_d.length ((0 : ℚ), (1 : ℚ))) [1] none none).1),
            (genF 1 (List.replicate stEx0.bounds_d.length ((0 : ℚ), (1 : ℚ))) [1] none none).2.1,
            [], none)) :=
  gen_delegates_unit_box stEx0 1 [((-1 : ℚ), 1)] [1] none none genF
    (by norm_num [boundsNeg11])

/-! ## Frame property of the stores (C7) -/

/-- C7: the correspondence store and generated log are append-only.
Construction seeds them with the initial points and the empty log; `fit`
(succeeding or failing), `predict`, `best_point`, `cross_validate` and
`update` leave both untouched; `gen` appends one common batch to both,
and that batch is empty whenever `gen` fails. -/
theorem stores_append_only (A P : Mat) (X0 : List Vec) (b : List (ℚ × ℚ)) (st : REMBO)
    (Xs Ys Yvars : List Mat) (digest : SearchSpaceDigest) (mns : List String) (cm : Option Unit)
    (Xp : Mat) (bounds : List (ℚ × ℚ)) (ow : Vec) (oc : Option (Mat × Vec))
    (lc : Option (Mat × Vec)) (ff : Option (List (ℕ × ℚ))) (po : Option (List Mat))
    (opts : Option Unit) (n : ℕ)
    (superGen : ℕ → List (ℚ × ℚ) → Vec → Option (Mat × Vec) → Option Unit →
      Mat × Vec × List (String × String) × Option Unit)
    (superBest : List (ℚ × ℚ) → Vec → Option (Mat × Vec) → Option Unit → Option Vec)
    (XsT YsT YvT : List Mat) (Xte : Mat) :
    ((REMBO.init A P X0 b).X_d = X0 ∧ (REMBO.init A P X0 b).X_d_gen = [])
    ∧ ((REMBO.fit st Xs Ys Yvars digest mns cm).1.X_d = st.X_d
        ∧ (REMBO.fit st Xs Ys Yvars digest mns cm).1.X_d_gen = st.X_d_gen)
    ∧ (REMBO.predict st Xp).1 = st
    ∧ (REMBO.best_point st bounds ow oc lc ff opts superBest).1 = st
    ∧ (REMBO.cross_validate st XsT YsT YvT Xte).1 = st
    ∧ (REMBO.update st Xs Ys Yvars cm).1 = st
    ∧ (∃ δ, (REMBO.gen st n bounds ow oc lc ff po opts superGen).1.X_d = st.X_d ++ δ
        ∧ (REMBO.gen st n bounds ow oc lc ff po opts superGen).1.X_d_gen = st.X_d_gen ++ δ
        ∧ (∀ e, (REMBO.gen st n bounds ow oc lc ff po opts superGen).2 = Except.error e →
            δ = [])) := by
  refine ⟨⟨rfl, rfl⟩, ?_, ?_, ?_, rfl, rfl, ?_⟩
  · constructor <;> (cases h : fitPreconds digest <;> simp [REMBO.fit, h])
  · unfold REMBO.predict
    split
    · rfl
    · dsimp only
      split <;> rfl
  · unfold REMBO.best_point
    split
    · split <;> rfl
    · rfl
  · cases hg : (boundsNeg11 bounds && lc.isNone && ff.isNone && po.isNone) with
    | true =>
      refine ⟨from01M st.bounds_d
        (superGen n (List.replicate st.bounds_d.length ((0 : ℚ), (1 : ℚ))) ow oc opts).1,
        ?_, ?_, ?_⟩
      · simp [REMBO.gen, hg]
      · simp [REMBO.gen, hg]
      · intro e he
        simp [REMBO.gen, hg] at he
    | false =>
      refine ⟨[], ?_, ?_, ?_⟩ <;> simp [REMBO.gen, hg]

/-- Witness for C7 (its conclusion contains inner implications): the
`update` component applied at a concrete state. -/
theorem stores_append_only_witness : (REMBO.update stEx0 [] [] [] none).1 = stEx0 :=
  (stores_append_only [[1]] [[1]] [] [] stEx0 [] [] [] digEx [] none [] [] [] none
    none none none none 0 genF bestF [] [] [] []).2.2.2.2.2.1

/-! ## Replication by num_outputs in update and cross_validate (C8) -/

/-- C8: `update` and `cross_validate` replicate the shared unit-box
low-dimensional design matrix exactly `num_outputs` times (the value
recorded by the most recent `fit`), no matter how many outcome matrices
the caller supplied; with `num_outputs = 0` the collaborator receives an
empty list of design matrices. -/
theorem update_cv_replicate_num_outputs (st : REMBO) (Xs Ys Yvars : List Mat)
    (cm : Option Unit) (XsT YsT YvT : List Mat) (Xte : Mat) :
    (∀ c, (REMBO.update st Xs Ys Yvars cm).2 = Except.ok c →
      (∃ Xd, c.Xs = List.replicate st.num_outputs (to01M st.bounds_d Xd))
      ∧ c.Xs.length = st.num_outputs ∧ (st.num_outputs = 0 → c.Xs = []))
    ∧ (∀ c, (REMBO.cross_validate st XsT YsT YvT Xte).2 = Except.ok c →
      (∃ Xd, c.Xs_train = List.replicate st.num_outputs (to01M st.bounds_d Xd))
      ∧ c.Xs_train.length = st.num_outputs ∧ (st.num_outputs = 0 → c.Xs_train = [])) := by
  constructor
  · intro c hc
    simp only [REMBO.update] at hc
    split at hc
    · exact absurd hc (by simp)
    · split at hc
      · exact absurd hc (by simp)
      · injection hc with hcc
        subst hcc
        exact ⟨⟨_, rfl⟩, by simp, fun h0 => by simp [h0]⟩
  · intro c hc
    simp only [REMBO.cross_validate] at hc
    split at hc
    · exact absurd hc (by simp)
    · split at hc
      · exact absurd hc (by simp)
      · split at hc
        · exact absurd hc (by simp)
        · injection hc with hcc
          subst hcc
          exact ⟨⟨_, rfl⟩, by simp, fun h0 => by simp [h0]⟩

/-- Witness for C8: `update` on a not-yet-fitted instance
(`num_outputs = 0`) succeeds and passes an empty list of design matrices
to the collaborator. -/
theorem update_cv_replicate_num_outputs_witness :
    (REMBO.update stEx0 [[[0]]] [] [] none).2 = Except.ok ⟨[], [], [], none⟩
    ∧ ((⟨[], [], [], none⟩ : UpdateCall).Xs.length = stEx0.num_outputs
        ∧ (stEx0.num_outputs = 0 → (⟨[], [], [], none⟩ : UpdateCall).Xs = [])) :=
  have hok : (REMBO.update stEx0 [[[0]]] [] [] none).2 = Except.ok ⟨[], [], [], none⟩ := by
    norm_num [REMBO.update, _get_single_X, REMBO.project_down, projectDownAux, findMatch,
      allcloseM, allcloseVec, closeQ, absQ, atol, rtol, projectUpVec, mulVec, dotQ, clampQ,
      to01M, to01row, stEx0, List.range_succ, List.range_zero]
  ⟨hok, ((update_cv_replicate_num_outputs stEx0 [[[0]]] [] [] none [] [] [] []).1
    ⟨[], [], [], none⟩ hok).2⟩
